import Mathlib

/-!
Shallow embedding of the change-set resolution and destination-routing
pipeline of the `od-sync-test` repository (the OneDrive upload scripts:
`src/upload-to-onedrive.js` and the two unnamed variants
`src/unnamed/part_000` and `src/unnamed/part_001`).

External collaborators (the Microsoft Graph transport, `glob`/`minimatch`
pattern matching, `git diff`, the filesystem) are modelled as explicit
parameters; everything with decision logic is translated from the source.
-/

/-! ## String primitives

The scripts use JavaScript's `String.prototype.split`, `String.prototype.replace`,
`path.extname` and `toLowerCase`.  We model the split on a single separator
character exactly as JS does it (`"".split(c) = [""]`, separators at the ends
produce empty segments). -/

/-- JS `s.split(sep)` for a one-character separator: walk the characters,
cutting at each separator.  Always returns at least one (possibly empty)
segment, exactly like JavaScript. -/
def splitOnChar (sep : Char) : List Char → String → List String
  | [], cur => [cur]
  | c :: cs, cur =>
    if c = sep then cur :: splitOnChar sep cs ""
    else splitOnChar sep cs (cur.push c)

/-- JS `filePath.split('/')` (and `filePath.split(path.sep)` on a POSIX
host, where `path.sep = '/'`). -/
def splitSegs (s : String) : List String := splitOnChar '/' s.data ""

/-- JS `filePath.replace(/\\/g, '/')` from `part_000`'s `getFolderMapping`:
every backslash becomes a forward slash. -/
def normalizeSlashes (s : String) : String :=
  String.mk (s.data.map fun c => if c = '\\' then '/' else c)

/-- JS `toLowerCase()`, character by character (all the extensions compared
against it are ASCII). -/
def toLowerJs (s : String) : String := String.mk (s.data.map Char.toLower)

/-- JS `path.extname(p)`: the suffix of the basename from its last dot,
except that a lone leading dot (e.g. `.gitignore`) yields `""`. -/
def extnameJs (p : String) : String :=
  let base := (splitSegs p).getLastD ""
  match splitOnChar '.' base.data "" with
  | [] => ""
  | [_] => ""
  | first :: rest =>
    if first = "" ∧ rest.length = 1 then ""
    else "." ++ rest.getLastD ""

/-! ## Destination resolution (`getFolderMapping`)

The repository holds three versions of the resolver.  A mapping table is the
`mappings:` section of `folder-mapping.yml`: an object from path prefix to
OneDrive folder id, modelled as an association list in insertion order
(JS `Object.keys` iterates string keys in insertion order). -/

structure FolderMapping where
  folderId : String
  folderName : String
deriving DecidableEq, Repr

/-- `getFolderMapping` of `src/upload-to-onedrive.js` (lines 160-175): take
the first directory of the file path and look it up in the table; return
`null` when the key is missing (or its value is falsy). -/
def getFolderMapping (filePath : String) (mappings : List (String × String)) :
    Option FolderMapping :=
  let pathParts := splitSegs filePath
  let firstDir := pathParts.headD ""
  match mappings.lookup firstDir with
  | some v => if v == "" then none else some ⟨v, firstDir⟩
  | none => none

/-- `mappingParts.every((part, index) => pathParts[index] === part)` from
`part_000`'s `getFolderMapping` (run under the guard
`pathParts.length >= mappingParts.length`): segment-wise comparison of the
mapping key against the leading segments of the path. -/
def segmentsMatch : List String → List String → Bool
  | [], _ => true
  | _ :: _, [] => false
  | k :: ks, p :: ps => (k == p) && segmentsMatch ks ps

/-- One iteration of the `for (const mappingPath of Object.keys(...))` loop of
`part_000`'s `getFolderMapping`: keep the running best match, replacing it when
this key is a segment prefix of the path with strictly more segments. -/
def gfmStep (pathParts : List String) (acc : Option FolderMapping × Nat)
    (kv : String × String) : Option FolderMapping × Nat :=
  let mappingParts := splitSegs kv.1
  if decide (mappingParts.length ≤ pathParts.length)
      && segmentsMatch mappingParts pathParts
      && decide (acc.2 < mappingParts.length) then
    (some ⟨kv.2, kv.1⟩, mappingParts.length)
  else acc

/-- `getFolderMapping` of `src/unnamed/part_000` (lines 160-189): normalize
the path, then scan every mapping key, keeping the longest segment-prefix
match; `null` when no key is a prefix. -/
def getFolderMapping000 (filePath : String) (mappings : List (String × String)) :
    Option FolderMapping :=
  let pathParts := splitSegs (normalizeSlashes filePath)
  (mappings.foldl (gfmStep pathParts) (none, 0)).1

/-- `getFolderMapping` of `src/unnamed/part_001` (lines 118-136): first-directory
lookup, but a miss returns the configured default folder instead of `null`. -/
def getFolderMapping001 (filePath : String) (mappings : List (String × String))
    (defaultFolderId : String) : FolderMapping :=
  let pathParts := splitSegs filePath
  let firstDir := pathParts.headD ""
  match mappings.lookup firstDir with
  | some v => if v == "" then ⟨defaultFolderId, "default"⟩ else ⟨v, firstDir⟩
  | none => ⟨defaultFolderId, "default"⟩

example : splitSegs "docs/api/spec.md" = ["docs", "api", "spec.md"] := by decide
example : splitSegs "" = [""] := by decide
example : extnameJs "docs/old.md" = ".md" := by decide
example : extnameJs ".gitignore" = "" := by decide
example : extnameJs "a.b.markdown" = ".markdown" := by decide
example : extnameJs "noext" = "" := by decide

example :
    getFolderMapping "docs/api/spec.md" [("docs", "F1"), ("docs/api", "F2")] =
      some ⟨"F1", "docs"⟩ := by decide

example :
    getFolderMapping000 "docs/api/spec.md" [("docs", "F1"), ("docs/api", "F2")] =
      some ⟨"F2", "docs/api"⟩ := by decide

example :
    getFolderMapping001 "guides/intro.md" [("docs", "F1")] "DEF" =
      ⟨"DEF", "default"⟩ := by decide

/-! ## Configuration (`folder-mapping.yml`) and `loadFolderMapping`

A loaded YAML configuration has a `mappings` object (absent, empty, or a
non-empty association list) plus optional `include_patterns` /
`exclude_patterns`, each of which may be absent, a single string, or an
array (JS is untyped, and the scripts normalize both shapes). -/

inductive PatternField where
  | absent
  | str (s : String)
  | arr (l : List String)
deriving DecidableEq, Repr

/-- The raw result of `yaml.load` on `folder-mapping.yml`. -/
structure RawConfig where
  mappings : Option (List (String × String))
  include_patterns : PatternField
  exclude_patterns : PatternField
deriving DecidableEq, Repr

/-- A configuration after `loadFolderMapping`'s validation (`mappings`
present and non-empty). -/
structure Config where
  mappings : List (String × String)
  include_patterns : PatternField
  exclude_patterns : PatternField
deriving DecidableEq, Repr

/-- `loadFolderMapping` of `src/upload-to-onedrive.js` (lines 123-158, and
identically `part_000` lines 123-158): reject an absent or empty `mappings`
section, then fill in the defaults — a falsy `include_patterns` becomes
`['**/*.md']`, a falsy `exclude_patterns` becomes `[]` (an empty array is
truthy in JS and is kept as is). -/
def loadFolderMapping (raw : RawConfig) : Except String Config :=
  match raw.mappings with
  | none => .error "Configuration missing \"mappings\" section"
  | some m =>
    if m.length == 0 then .error "No folder mappings defined in configuration"
    else
      .ok
        { mappings := m
          include_patterns :=
            match raw.include_patterns with
            | .absent => .arr ["**/*.md"]
            | .str s => if s == "" then .arr ["**/*.md"] else .str s
            | .arr l => .arr l
          exclude_patterns :=
            match raw.exclude_patterns with
            | .absent => .arr []
            | .str s => if s == "" then .arr [] else .str s
            | .arr l => .arr l }

/-- `loadFolderMapping` of `src/unnamed/part_001` (lines 108-116): it returns
`yaml.load(configFile)` unchanged — no validation and no defaulting. -/
def loadFolderMapping001 (raw : RawConfig) : RawConfig := raw

/-- The include-pattern normalization shared by `findMarkdownFiles`
(`src/upload-to-onedrive.js` lines 181-183) and `getChangedMarkdownFiles`
(lines 281-283): `Array.isArray(x) ? x : [x || '**/*.md']`. -/
def normalizeInclude : PatternField → List String
  | .arr l => l
  | .str s => if s == "" then ["**/*.md"] else [s]
  | .absent => ["**/*.md"]

/-- The exclude-pattern normalization of the same functions (lines 186-188 and
285-287): `Array.isArray(x) ? x : (x ? [x] : [])`. -/
def normalizeExclude : PatternField → List String
  | .arr l => l
  | .str s => if s == "" then [] else [s]
  | .absent => []

/-- The include-pattern normalization of `findAllFiles` in
`src/unnamed/part_000` (lines 195-197): `Array.isArray(x) ? x : [x || '**/*']`
— note the fallback there is `'**/*'`, not `'**/*.md'`. -/
def normalizeInclude000 : PatternField → List String
  | .arr l => l
  | .str s => if s == "" then ["**/*"] else [s]
  | .absent => ["**/*"]

/-! ## Scope filtering (`findMarkdownFiles`)

`glob` and `minimatch` are external leaf capabilities.  Modelled from the
spec: the PatternMatcher is an externally provided predicate
`matc : pattern → path → Bool`, and `glob(pattern, { nodir: true })` returns
the files of the working tree (`world`) that match the pattern. -/

/-- The candidate accumulation loop of `findMarkdownFiles`
(`src/upload-to-onedrive.js` lines 194-202): `allFiles` is the concatenation,
include pattern by include pattern, of the glob results. -/
def candidateFiles (world : List String) (includePatterns : List String)
    (matc : String → String → Bool) : List String :=
  includePatterns.foldl (fun acc pat => acc ++ world.filter (fun f => matc pat f)) []

/-- `[...new Set(allFiles)]` (line 205): JS `Set` keeps the first occurrence
of each element, in insertion order. -/
def dedupFirstAux : List String → List String → List String
  | _, [] => []
  | seen, x :: xs =>
    if seen.contains x then dedupFirstAux seen xs
    else x :: dedupFirstAux (x :: seen) xs

/-- First-occurrence deduplication, as performed by `[...new Set(allFiles)]`. -/
def dedupFirst (l : List String) : List String := dedupFirstAux [] l

/-- `findMarkdownFiles` of `src/upload-to-onedrive.js` (lines 177-225):
normalize the pattern fields, glob every include pattern, deduplicate, then
drop the files matching some exclude pattern.  (The per-pattern `try/catch`
branches — a throwing glob skips that pattern, a throwing `minimatch` is
treated as non-matching — cannot fire for a total matcher and are not
modelled.) -/
def findMarkdownFiles (world : List String) (incF excF : PatternField)
    (matc : String → String → Bool) : List String :=
  let includePatterns := normalizeInclude incF
  let excludePatterns := normalizeExclude excF
  let allFiles := candidateFiles world includePatterns matc
  let uniqueFiles := dedupFirst allFiles
  uniqueFiles.filter fun file => !(excludePatterns.any fun ep => matc ep file)

/-! ## Change detection (`getChangedMarkdownFiles`)

The run context is the GitHub Actions environment; `git diff --name-only` is
an external tool whose outcome we pass in as an `Except` (the `execSync` call
either throws or yields the diff's lines). -/

inductive GitEvent where
  | push
  | pullRequest
  | workflowDispatch
  | other (name : String)
deriving DecidableEq, Repr

structure RunContext where
  githubActions : Bool
  eventName : GitEvent
deriving DecidableEq, Repr

/-- Modelled from the spec: `git diff --name-only` reports the names of all
paths that differ between the two reference points — added, modified, or
deleted alike.  A changed path is a name plus whether the change was a
deletion. -/
structure ChangeEntry where
  path : String
  deleted : Bool
deriving DecidableEq, Repr

/-- Modelled from the spec: the name list the external diff tool prints — one
name per changed path, deletions included (the name-only output carries no
status, so a deletion is indistinguishable from a modification here). -/
def gitDiffNames (changes : List ChangeEntry) : List String :=
  changes.map (·.path)

/-- `getChangedMarkdownFiles` of `src/upload-to-onedrive.js` (lines 227-322).
Outside GitHub Actions, and for `workflow_dispatch` or unknown events, it
returns the full scan.  For `push` / `pull_request` it uses the git diff
lines: an `execSync` error falls back to the full scan (the `catch` at lines
317-321); otherwise the lines are filtered to non-empty names, then to
markdown extensions, then through the include/exclude patterns. -/
def getChangedMarkdownFiles (ctx : RunContext)
    (gitResult : Except String (List String)) (world : List String)
    (incF excF : PatternField) (matc : String → String → Bool) : List String :=
  if ctx.githubActions = false then findMarkdownFiles world incF excF matc
  else
    match ctx.eventName with
    | .workflowDispatch => findMarkdownFiles world incF excF matc
    | .other _ => findMarkdownFiles world incF excF matc
    | .push | .pullRequest =>
      match gitResult with
      | .error _ => findMarkdownFiles world incF excF matc
      | .ok lines =>
        let changedFiles := lines.filter (fun s => !(s == ""))
        if changedFiles.length == 0 then []
        else
          let changedMarkdownFiles := changedFiles.filter fun f =>
            [".md", ".markdown"].contains (toLowerJs (extnameJs f))
          if changedMarkdownFiles.length == 0 then []
          else
            let includePatterns := normalizeInclude incF
            let excludePatterns := normalizeExclude excF
            changedMarkdownFiles.filter fun f =>
              (includePatterns.any fun pat => matc pat f)
                && !(excludePatterns.any fun pat => matc pat f)

/-! ## Delivery (`OneDriveUploader.uploadFile`)

The Graph transport is external: we model one `uploadFile` call by the
sequence of outcomes the remote PUT would return on successive attempts.
`uploadFile` (`src/upload-to-onedrive.js` lines 46-91; the 401 branch is
lines 80-90, identical in `part_000` lines 80-90 and `part_001` lines 65-75)
reacts to an attempt's outcome as follows: success returns; a 401 response
re-authenticates and recursively calls `uploadFile` again; any other error is
re-thrown to the caller.  (The initial `authenticate()` when no token is held
yet, and the purely informational existence probe, do not affect this control
flow and are not modelled.)  The recursion carries no depth counter, so it
consumes one schedule entry per attempt; `none` means the schedule was too
short to determine the call's outcome. -/

inductive PutResult where
  | ok
  | auth401
  | otherErr
deriving DecidableEq, Repr

inductive UploadOutcome where
  | success
  | hardFailure
deriving DecidableEq, Repr

/-- One logical `uploadFile` call, as a function of the outcomes of its
successive PUT attempts.  Returns the call's outcome together with the number
of PUT attempts made and the number of re-authentications performed inside
the `catch` branch. -/
def uploadFileCall : List PutResult → Option (UploadOutcome × Nat × Nat)
  | [] => none
  | .ok :: _ => some (.success, 1, 0)
  | .otherErr :: _ => some (.hardFailure, 1, 0)
  | .auth401 :: rest =>
    match uploadFileCall rest with
    | some (o, attempts, reauths) => some (o, attempts + 1, reauths + 1)
    | none => none

example : uploadFileCall [.auth401, .ok] = some (.success, 2, 1) := by decide
example : uploadFileCall [.auth401, .auth401, .ok] = some (.success, 3, 2) := by decide
example : uploadFileCall [.auth401, .otherErr] = some (.hardFailure, 2, 1) := by decide

/-! ## Orchestration (`main` of `src/upload-to-onedrive.js`, lines 324-395)

The per-file loop (lines 358-379) classifies every file as skipped (no
mapping), uploaded (delivery succeeded) or failed (the `catch` of the loop
body).  Whether a given file's delivery succeeds is the external world's
business, passed in as `uploadOk`. -/

inductive FileOutcome where
  | uploadedO
  | skippedO
  | failedO
deriving DecidableEq, Repr

/-- The classification one loop iteration gives `filePath`
(`src/upload-to-onedrive.js` lines 359-378). -/
def outcomeOf (mappings : List (String × String)) (uploadOk : String → Bool)
    (filePath : String) : FileOutcome :=
  match getFolderMapping filePath mappings with
  | none => .skippedO
  | some _ => if uploadOk filePath then .uploadedO else .failedO

structure Counters where
  uploaded : Nat
  skipped : Nat
  failed : Nat
deriving DecidableEq, Repr

/-- `successCount++` / `skippedCount++` / `errorCount++`. -/
def bump (c : Counters) : FileOutcome → Counters
  | .uploadedO => { c with uploaded := c.uploaded + 1 }
  | .skippedO => { c with skipped := c.skipped + 1 }
  | .failedO => { c with failed := c.failed + 1 }

/-- The `for (const filePath of markdownFiles)` loop (lines 358-379): the
body never escapes the loop — a failed delivery lands in the `catch`, bumps
`errorCount`, and the loop continues with the next file. -/
def processLoop (mappings : List (String × String)) (uploadOk : String → Bool)
    (files : List String) (c : Counters) : Counters :=
  files.foldl (fun acc f => bump acc (outcomeOf mappings uploadOk f)) c

/-- The counters `main` reports (lines 354-385), starting from zero. -/
def runCounters (mappings : List (String × String)) (uploadOk : String → Bool)
    (files : List String) : Counters :=
  processLoop mappings uploadOk files ⟨0, 0, 0⟩

/-- The files for which `main` reaches `uploader.uploadFile` (line 373):
exactly those with a folder mapping. -/
def deliveredFiles (mappings : List (String × String)) (files : List String) :
    List String :=
  files.filter fun f => (getFolderMapping f mappings).isSome

/-- `main` of `src/upload-to-onedrive.js` (lines 324-395), after the
environment-variable check: load and validate the configuration, resolve the
change set, then run the per-file loop.  A configuration error propagates as
`Except.error` — `main`'s `catch` prints it and exits — before any file is
enumerated, classified, or delivered; the `ok` payload is the final counters
together with the list of files for which a delivery call was made. -/
def mainRun (raw : RawConfig) (ctx : RunContext)
    (gitResult : Except String (List String)) (world : List String)
    (matc : String → String → Bool) (uploadOk : String → Bool) :
    Except String (Counters × List String) :=
  match loadFolderMapping raw with
  | .error e => .error e
  | .ok config =>
    let files := getChangedMarkdownFiles ctx gitResult world
      config.include_patterns config.exclude_patterns matc
    .ok (runCounters config.mappings uploadOk files,
         deliveredFiles config.mappings files)

/-! ## Lemmas about the string primitives -/

theorem splitOnChar_ne_nil (sep : Char) :
    ∀ (cs : List Char) (cur : String), splitOnChar sep cs cur ≠ [] := by
  intro cs
  induction cs with
  | nil => intro cur; simp [splitOnChar]
  | cons c cs ih =>
    intro cur
    unfold splitOnChar
    split
    · simp
    · exact ih _

theorem splitSegs_ne_nil (s : String) : splitSegs s ≠ [] :=
  splitOnChar_ne_nil '/' s.data ""

theorem splitSegs_length_pos (s : String) : 0 < (splitSegs s).length :=
  List.length_pos.mpr (splitSegs_ne_nil s)

/-- `segmentsMatch a b` holds exactly when `a` is a leading segment list of
`b` — the claim's notion of a segment-wise path prefix. -/
theorem segmentsMatch_iff (a : List String) :
    ∀ b : List String, segmentsMatch a b = true ↔ ∃ t, a ++ t = b := by
  induction a with
  | nil =>
    intro b
    simp [segmentsMatch]
  | cons k ks ih =>
    intro b
    cases b with
    | nil =>
      simp [segmentsMatch]
    | cons p ps =>
      simp only [segmentsMatch, Bool.and_eq_true, beq_iff_eq, ih, List.cons_append,
        List.cons.injEq]
      constructor
      · rintro ⟨rfl, t, rfl⟩
        exact ⟨t, rfl, rfl⟩
      · rintro ⟨t, rfl, rfl⟩
        exact ⟨rfl, t, rfl⟩

theorem segmentsMatch_length_le {a b : List String}
    (h : segmentsMatch a b = true) : a.length ≤ b.length := by
  obtain ⟨t, rfl⟩ := (segmentsMatch_iff a b).mp h
  simp

/-! ## Longest-prefix selection in `part_000`'s resolver

The invariant carried through the `for (const mappingPath of ...)` loop:
the running best match dominates every key seen so far, and is itself one of
the keys seen so far (or still the initial `(null, 0)`). -/

def gfmInv (pathParts : List String) (M : List (String × String))
    (acc : Option FolderMapping × Nat) : Prop :=
  (∀ kv ∈ M, segmentsMatch (splitSegs kv.1) pathParts = true →
      (splitSegs kv.1).length ≤ acc.2) ∧
  (acc = (none, 0) ∨
    ∃ k v, (k, v) ∈ M ∧ acc = (some ⟨v, k⟩, (splitSegs k).length) ∧
      segmentsMatch (splitSegs k) pathParts = true)

theorem gfmStep_inv {pp : List String} {M : List (String × String)}
    {acc : Option FolderMapping × Nat} {kv : String × String}
    (h : gfmInv pp M acc) : gfmInv pp (M ++ [kv]) (gfmStep pp acc kv) := by
  obtain ⟨hmax, hbest⟩ := h
  by_cases hc : (decide ((splitSegs kv.1).length ≤ pp.length)
      && segmentsMatch (splitSegs kv.1) pp
      && decide (acc.2 < (splitSegs kv.1).length)) = true
  · have hstep : gfmStep pp acc kv = (some ⟨kv.2, kv.1⟩, (splitSegs kv.1).length) := by
      unfold gfmStep
      rw [if_pos hc]
    simp only [Bool.and_eq_true, decide_eq_true_eq] at hc
    obtain ⟨⟨hlen, hmatch⟩, hlt⟩ := hc
    rw [hstep]
    constructor
    · intro kv' hmem hpref
      rcases List.mem_append.mp hmem with h' | h'
      · exact le_trans (hmax kv' h' hpref) (le_of_lt hlt)
      · rw [List.mem_singleton] at h'
        subst h'
        exact le_refl _
    · right
      exact ⟨kv.1, kv.2, List.mem_append_right _ (List.mem_singleton.mpr rfl), rfl, hmatch⟩
  · have hstep : gfmStep pp acc kv = acc := by
      unfold gfmStep
      rw [if_neg hc]
    rw [hstep]
    constructor
    · intro kv' hmem hpref
      rcases List.mem_append.mp hmem with h' | h'
      · exact hmax kv' h' hpref
      · rw [List.mem_singleton] at h'
        subst h'
        by_contra hgt
        push_neg at hgt
        apply hc
        simp only [Bool.and_eq_true, decide_eq_true_eq]
        exact ⟨⟨segmentsMatch_length_le hpref, hpref⟩, hgt⟩
    · rcases hbest with h' | ⟨k, v, hm, he, hp⟩
      · exact Or.inl h'
      · exact Or.inr ⟨k, v, List.mem_append_left _ hm, he, hp⟩

theorem gfmFold_inv (pp : List String) :
    ∀ (L M₀ : List (String × String)) (acc : Option FolderMapping × Nat),
      gfmInv pp M₀ acc → gfmInv pp (M₀ ++ L) (L.foldl (gfmStep pp) acc) := by
  intro L
  induction L with
  | nil =>
    intro M₀ acc h
    simpa using h
  | cons kv L ih =>
    intro M₀ acc h
    have h2 := ih (M₀ ++ [kv]) (gfmStep pp acc kv) (gfmStep_inv h)
    rw [List.foldl_cons]
    simpa [List.append_assoc] using h2

/-- `part_000`'s resolver really is a longest-segment-prefix lookup: a `null`
result means no mapping key is a segment prefix of the (normalized) path, and
a returned match is a mapping entry whose key is a segment prefix of maximal
segment count among all prefix keys. -/
theorem getFolderMapping000_longest_match (p : String)
    (M : List (String × String)) :
    (getFolderMapping000 p M = none →
      ∀ kv ∈ M, segmentsMatch (splitSegs kv.1) (splitSegs (normalizeSlashes p)) = false) ∧
    (∀ fm, getFolderMapping000 p M = some fm →
      (fm.folderName, fm.folderId) ∈ M ∧
      segmentsMatch (splitSegs fm.folderName) (splitSegs (normalizeSlashes p)) = true ∧
      ∀ kv ∈ M, segmentsMatch (splitSegs kv.1) (splitSegs (normalizeSlashes p)) = true →
        (splitSegs kv.1).length ≤ (splitSegs fm.folderName).length) := by
  have hbase : gfmInv (splitSegs (normalizeSlashes p)) [] (none, 0) := by
    constructor
    · intro kv hmem
      simp at hmem
    · exact Or.inl rfl
  have hinv := gfmFold_inv (splitSegs (normalizeSlashes p)) M [] (none, 0) hbase
  rw [List.nil_append] at hinv
  obtain ⟨hmax, hbest⟩ := hinv
  constructor
  · intro hnone kv hmem
    rcases hbest with h0 | ⟨k, v, _, he, _⟩
    · by_contra hne
      have hpref : segmentsMatch (splitSegs kv.1) (splitSegs (normalizeSlashes p)) = true := by
        cases hval : segmentsMatch (splitSegs kv.1) (splitSegs (normalizeSlashes p))
        · exact absurd hval hne
        · rfl
      have hle := hmax kv hmem hpref
      rw [h0] at hle
      exact absurd (lt_of_lt_of_le (splitSegs_length_pos kv.1) hle) (lt_irrefl 0)
    · exfalso
      have : getFolderMapping000 p M =
          (M.foldl (gfmStep (splitSegs (normalizeSlashes p))) (none, 0)).1 := rfl
      rw [this, he] at hnone
      simp at hnone
  · intro fm hsome
    have hres : (M.foldl (gfmStep (splitSegs (normalizeSlashes p))) (none, 0)).1 = some fm :=
      hsome
    rcases hbest with h0 | ⟨k, v, hm, he, hp⟩
    · rw [h0] at hres
      simp at hres
    · rw [he] at hres
      simp only [Option.some.injEq] at hres
      subst hres
      refine ⟨hm, hp, ?_⟩
      intro kv hmem hpref
      have := hmax kv hmem hpref
      rw [he] at this
      exact this

/-! ## Lemmas about the scope filter -/

theorem mem_candidateFiles_aux (world : List String)
    (matc : String → String → Bool) :
    ∀ (pats acc : List String) (f : String),
      f ∈ pats.foldl (fun acc pat => acc ++ world.filter (fun x => matc pat x)) acc ↔
        f ∈ acc ∨ ∃ pat ∈ pats, f ∈ world ∧ matc pat f = true := by
  intro pats
  induction pats with
  | nil =>
    intro acc f
    simp
  | cons p ps ih =>
    intro acc f
    rw [List.foldl_cons, ih]
    simp only [List.mem_append, List.mem_filter, List.mem_cons]
    constructor
    · rintro ((h | ⟨hw, hm⟩) | ⟨pat, hpat, hw, hm⟩)
      · exact Or.inl h
      · exact Or.inr ⟨p, Or.inl rfl, hw, hm⟩
      · exact Or.inr ⟨pat, Or.inr hpat, hw, hm⟩
    · rintro (h | ⟨pat, (rfl | hpat), hw, hm⟩)
      · exact Or.inl (Or.inl h)
      · exact Or.inl (Or.inr ⟨hw, hm⟩)
      · exact Or.inr ⟨pat, hpat, hw, hm⟩

theorem mem_candidateFiles (world pats : List String)
    (matc : String → String → Bool) (f : String) :
    f ∈ candidateFiles world pats matc ↔
      ∃ pat ∈ pats, f ∈ world ∧ matc pat f = true := by
  unfold candidateFiles
  rw [mem_candidateFiles_aux]
  simp

theorem dedupFirstAux_sublist :
    ∀ (l seen : List String), (dedupFirstAux seen l).Sublist l := by
  intro l
  induction l with
  | nil =>
    intro seen
    simp [dedupFirstAux]
  | cons x xs ih =>
    intro seen
    unfold dedupFirstAux
    split
    · exact (ih seen).trans (List.sublist_cons_self x xs)
    · exact (ih (x :: seen)).cons₂ x

theorem mem_dedupFirstAux :
    ∀ (l seen : List String) (x : String),
      x ∈ dedupFirstAux seen l ↔ x ∈ l ∧ x ∉ seen := by
  intro l
  induction l with
  | nil =>
    intro seen x
    simp [dedupFirstAux]
  | cons y ys ih =>
    intro seen x
    unfold dedupFirstAux
    split
    · rename_i hy
      have hy' : y ∈ seen := by simpa using hy
      rw [ih]
      simp only [List.mem_cons]
      constructor
      · rintro ⟨hmem, hnot⟩
        exact ⟨Or.inr hmem, hnot⟩
      · rintro ⟨rfl | hmem, hnot⟩
        · exact absurd hy' hnot
        · exact ⟨hmem, hnot⟩
    · rename_i hy
      have hy' : y ∉ seen := by simpa using hy
      constructor
      · intro hmem
        rcases List.mem_cons.mp hmem with rfl | hmem'
        · exact ⟨List.mem_cons_self _ _, hy'⟩
        · obtain ⟨h1, h2⟩ := (ih (y :: seen) x).mp hmem'
          exact ⟨List.mem_cons_of_mem _ h1,
            fun hs => h2 (List.mem_cons_of_mem _ hs)⟩
      · rintro ⟨hmem, hnot⟩
        by_cases hxy : x = y
        · subst hxy
          exact List.mem_cons_self _ _
        · rcases List.mem_cons.mp hmem with rfl | hmem'
          · exact absurd rfl hxy
          · refine List.mem_cons_of_mem _ ((ih (y :: seen) x).mpr ⟨hmem', fun hs => ?_⟩)
            rcases List.mem_cons.mp hs with h' | hs'
            · exact hxy h'
            · exact hnot hs'

theorem dedupFirstAux_nodup :
    ∀ (l seen : List String), (dedupFirstAux seen l).Nodup := by
  intro l
  induction l with
  | nil =>
    intro seen
    simp [dedupFirstAux]
  | cons y ys ih =>
    intro seen
    unfold dedupFirstAux
    split
    · exact ih seen
    · refine List.nodup_cons.mpr ⟨fun hmem => ?_, ih (y :: seen)⟩
      exact ((mem_dedupFirstAux ys (y :: seen) y).mp hmem).2 (List.mem_cons_self _ _)

theorem dedupFirst_sublist (l : List String) : (dedupFirst l).Sublist l :=
  dedupFirstAux_sublist l []

theorem mem_dedupFirst (l : List String) (x : String) :
    x ∈ dedupFirst l ↔ x ∈ l := by
  unfold dedupFirst
  rw [mem_dedupFirstAux]
  simp

theorem dedupFirst_nodup (l : List String) : (dedupFirst l).Nodup :=
  dedupFirstAux_nodup l []

/-! ## Lemmas about the orchestrator's counters -/

theorem processLoop_eq (m : List (String × String)) (ok : String → Bool) :
    ∀ (files : List String) (c : Counters),
      processLoop m ok files c =
        ⟨c.uploaded + (files.countP fun f => outcomeOf m ok f == .uploadedO),
         c.skipped + (files.countP fun f => outcomeOf m ok f == .skippedO),
         c.failed + (files.countP fun f => outcomeOf m ok f == .failedO)⟩ := by
  intro files
  induction files with
  | nil =>
    intro c
    simp [processLoop]
  | cons f fs ih =>
    intro c
    have hstep : processLoop m ok (f :: fs) c =
        processLoop m ok fs (bump c (outcomeOf m ok f)) := rfl
    rw [hstep, ih]
    cases h : outcomeOf m ok f <;>
      simp [bump, List.countP_cons, h, Nat.add_assoc, Nat.add_comm, Nat.add_left_comm]

theorem countP_outcomes (m : List (String × String)) (ok : String → Bool) :
    ∀ files : List String,
      (files.countP fun f => outcomeOf m ok f == .uploadedO) +
      (files.countP fun f => outcomeOf m ok f == .skippedO) +
      (files.countP fun f => outcomeOf m ok f == .failedO) = files.length := by
  intro files
  induction files with
  | nil =>
    simp
  | cons f fs ih =>
    cases h : outcomeOf m ok f <;>
      simp [List.countP_cons, h, ← ih] <;> omega

/-! ## A concrete pattern matcher instance

Modelled from the spec: the PatternMatcher is an external leaf capability
(`glob` / `minimatch`).  Concrete theorems instantiate it with this small
realization of the two glob patterns the examples use. -/

/-- A concrete matcher: `**/*.md` matches the paths with extension `.md`,
`**/draft/**` matches the paths with a `draft` segment. -/
def mdGlob (pat p : String) : Bool :=
  if pat == "**/*.md" then extnameJs p == ".md"
  else if pat == "**/draft/**" then (splitSegs p).contains "draft"
  else false

/-! ## Claim theorems -/

/-- Claim C1 — code_bug evaluation.  At the claim's own example — mappings
`{ "docs": "F1", "docs/api": "F2" }` and path `docs/api/spec.md` — the
resolver of `src/upload-to-onedrive.js` returns `F1`: it matches only the
first path segment, not the longest segment prefix.  The `part_000` resolver
returns `F2` as the claim (and the repository README's "most specific
(longest) matching path takes precedence" rule) requires. -/
theorem c1_resolver_divergence :
    getFolderMapping "docs/api/spec.md" [("docs", "F1"), ("docs/api", "F2")] =
      some ⟨"F1", "docs"⟩ ∧
    getFolderMapping000 "docs/api/spec.md" [("docs", "F1"), ("docs/api", "F2")] =
      some ⟨"F2", "docs/api"⟩ ∧
    (some (FolderMapping.mk "F1" "docs") ≠ some (FolderMapping.mk "F2" "docs/api")) := by
  decide

/-- Claim C2 — counterexample.  A schedule of two consecutive 401 responses
followed by a success: `uploadFile` makes a third PUT attempt and succeeds
after two re-authentications, instead of surfacing the second authorization
failure as a hard failure after at most two attempts. -/
theorem c2_counterexample :
    uploadFileCall [.auth401, .auth401, .ok] = some (.success, 3, 2) ∧
    uploadFileCall [.auth401, .auth401, .ok] ≠ some (.hardFailure, 2, 1) := by
  decide

/-- Claim C2 — amended.  `uploadFile` re-authenticates and retries after
every authorization failure, with no bound on the retry depth: `n`
consecutive 401s followed by a success yield a successful call with `n + 1`
attempts and `n` re-authentications, and a non-authorization failure after
`n` 401s is surfaced as a hard failure at attempt `n + 1`. -/
theorem c2_unbounded_retry :
    (∀ n : Nat, uploadFileCall (List.replicate n .auth401 ++ [.ok]) =
        some (.success, n + 1, n)) ∧
    (∀ (n : Nat) (rest : List PutResult),
        uploadFileCall (List.replicate n .auth401 ++ .otherErr :: rest) =
          some (.hardFailure, n + 1, n)) := by
  constructor
  · intro n
    induction n with
    | zero => rfl
    | succ n ih => simp [List.replicate_succ, uploadFileCall, ih]
  · intro n rest
    induction n with
    | zero => rfl
    | succ n ih => simp [List.replicate_succ, uploadFileCall, ih]

/-- Claim C3 — code_bug evaluation.  A push whose diff consists of the
deletion of `docs/old.md`: the name-only diff output still lists the path,
`getChangedMarkdownFiles` filters only by emptiness, extension and patterns,
and the deleted file ends up in the upload candidate set. -/
theorem c3_deleted_file_in_candidates :
    "docs/old.md" ∈ getChangedMarkdownFiles ⟨true, .push⟩
        (.ok (gitDiffNames [⟨"docs/old.md", true⟩])) []
        (.arr ["**/*.md"]) (.arr []) mdGlob ∧
    (ChangeEntry.mk "docs/old.md" true).deleted = true := by
  decide

/-- Claim C4 — confirmed.  The orchestrator's loop classifies every file of
the filtered candidate list exactly once: each counter equals the number of
files with that outcome, and the three counters sum to the list's length —
in particular a failed delivery never prevents the remaining files from
being counted. -/
theorem c4_counters_partition (m : List (String × String)) (ok : String → Bool)
    (files : List String) :
    (runCounters m ok files).uploaded =
        (files.countP fun f => outcomeOf m ok f == .uploadedO) ∧
    (runCounters m ok files).skipped =
        (files.countP fun f => outcomeOf m ok f == .skippedO) ∧
    (runCounters m ok files).failed =
        (files.countP fun f => outcomeOf m ok f == .failedO) ∧
    (runCounters m ok files).uploaded + (runCounters m ok files).skipped +
        (runCounters m ok files).failed = files.length := by
  have h := processLoop_eq m ok files ⟨0, 0, 0⟩
  unfold runCounters
  rw [h]
  refine ⟨by simp, by simp, by simp, ?_⟩
  simpa using countP_outcomes m ok files

/-- Claim C5 — counterexample.  The `part_001` resolver routes an unmapped
file to the configured default folder rather than signalling a skip: with
mappings `{ "docs": "F1" }`, the unmapped path `guides/intro.md` is resolved
to the default destination. -/
theorem c5_default_routing :
    getFolderMapping001 "guides/intro.md" [("docs", "F1")] "DEF" =
      ⟨"DEF", "default"⟩ := by
  decide

/-- Claim C5 — amended.  In `src/upload-to-onedrive.js` an unmapped file is
classified as skipped (so never as failed) and no delivery call is made for
it; in the `part_001` variant an unmapped file is instead routed to the
configured default folder. -/
theorem c5_unmapped_skip :
    (∀ (m : List (String × String)) (ok : String → Bool) (f : String),
        getFolderMapping f m = none → outcomeOf m ok f = .skippedO) ∧
    (∀ (m : List (String × String)) (files : List String) (f : String),
        getFolderMapping f m = none → f ∉ deliveredFiles m files) ∧
    (∀ (f : String) (m : List (String × String)) (d : String),
        m.lookup ((splitSegs f).headD "") = none →
          getFolderMapping001 f m d = ⟨d, "default"⟩) := by
  refine ⟨?_, ?_, ?_⟩
  · intro m ok f h
    simp only [outcomeOf]
    rw [h]
  · intro m files f h hmem
    have hs := (List.mem_filter.mp hmem).2
    rw [h] at hs
    simp at hs
  · intro f m d h
    simp only [getFolderMapping001]
    rw [h]

/-- Claim C5 — witness for the amended theorem at a concrete input. -/
theorem c5_witness :
    outcomeOf [("docs", "F1")] (fun _ => true) "guides/intro.md" = .skippedO ∧
    "guides/intro.md" ∉ deliveredFiles [("docs", "F1")] ["guides/intro.md"] ∧
    getFolderMapping001 "guides/intro.md" [("docs", "F1")] "DEF" =
      ⟨"DEF", "default"⟩ :=
  ⟨c5_unmapped_skip.1 _ _ _ (by decide),
   c5_unmapped_skip.2.1 _ _ _ (by decide),
   c5_unmapped_skip.2.2 _ _ _ (by decide)⟩

/-- Claim C6 — confirmed.  In an incremental context (GitHub Actions, event
`push` or `pull_request`), an error from the diff computation makes
`getChangedMarkdownFiles` return exactly the full-scan result
`findMarkdownFiles` for the same include/exclude configuration. -/
theorem c6_fallback_on_error (ctx : RunContext) (msg : String)
    (world : List String) (incF excF : PatternField)
    (matc : String → String → Bool)
    (hga : ctx.githubActions = true)
    (hev : ctx.eventName = .push ∨ ctx.eventName = .pullRequest) :
    getChangedMarkdownFiles ctx (.error msg) world incF excF matc =
      findMarkdownFiles world incF excF matc := by
  obtain ⟨ga, en⟩ := ctx
  simp only at hga hev
  subst hga
  rcases hev with h | h <;> subst h <;> rfl

/-- Claim C6 — witness at a concrete input. -/
theorem c6_witness :
    getChangedMarkdownFiles ⟨true, .push⟩ (.error "git failed") ["a.md"]
        (.arr ["**/*.md"]) (.arr []) mdGlob =
      findMarkdownFiles ["a.md"] (.arr ["**/*.md"]) (.arr []) mdGlob :=
  c6_fallback_on_error ⟨true, .push⟩ "git failed" ["a.md"]
    (.arr ["**/*.md"]) (.arr []) mdGlob rfl (Or.inl rfl)

/-- Claim C7 — confirmed.  The scope filter's output is a sublist of the
candidate list (so it contains no path outside the candidates and keeps
first-seen order), has no duplicates, every returned path matches at least
one include pattern and no exclude pattern, and every candidate passing the
exclude patterns is returned. -/
theorem c7_scope_filter (world : List String) (incF excF : PatternField)
    (matc : String → String → Bool) :
    (findMarkdownFiles world incF excF matc).Sublist
        (candidateFiles world (normalizeInclude incF) matc) ∧
    (findMarkdownFiles world incF excF matc).Nodup ∧
    (∀ f ∈ findMarkdownFiles world incF excF matc,
        ∃ pat ∈ normalizeInclude incF, matc pat f = true) ∧
    (∀ f ∈ findMarkdownFiles world incF excF matc,
        ∀ pat ∈ normalizeExclude excF, matc pat f = false) ∧
    (∀ f ∈ candidateFiles world (normalizeInclude incF) matc,
        (∀ pat ∈ normalizeExclude excF, matc pat f = false) →
          f ∈ findMarkdownFiles world incF excF matc) := by
  have hdef : findMarkdownFiles world incF excF matc =
      (dedupFirst (candidateFiles world (normalizeInclude incF) matc)).filter
        (fun file => !((normalizeExclude excF).any fun ep => matc ep file)) := rfl
  have hsub : (findMarkdownFiles world incF excF matc).Sublist
      (candidateFiles world (normalizeInclude incF) matc) := by
    rw [hdef]
    exact (List.filter_sublist _).trans (dedupFirst_sublist _)
  refine ⟨hsub, ?_, ?_, ?_, ?_⟩
  · rw [hdef]
    exact (dedupFirst_nodup _).filter _
  · intro f hf
    have hfC := hsub.subset hf
    obtain ⟨pat, hpat, _, hm⟩ := (mem_candidateFiles _ _ _ _).mp hfC
    exact ⟨pat, hpat, hm⟩
  · intro f hf pat hpat
    rw [hdef] at hf
    have hcond := (List.mem_filter.mp hf).2
    rw [Bool.not_eq_true'] at hcond
    have hall := List.any_eq_false.mp hcond
    simpa using hall pat hpat
  · intro f hf hexc
    rw [hdef]
    refine List.mem_filter.mpr ⟨(mem_dedupFirst _ _).mpr hf, ?_⟩
    rw [Bool.not_eq_true']
    refine List.any_eq_false.mpr ?_
    intro pat hpat
    simp [hexc pat hpat]

/-- Claim C7 — witness at a concrete input: a duplicated candidate appears
once, the excluded draft file is dropped, and the surviving file is
returned. -/
theorem c7_witness :
    "notes/a.md" ∈ findMarkdownFiles
        ["notes/a.md", "notes/a.md", "notes/draft/x.md", "b.txt"]
        (.arr ["**/*.md"]) (.arr ["**/draft/**"]) mdGlob ∧
    (findMarkdownFiles ["notes/a.md", "notes/a.md", "notes/draft/x.md", "b.txt"]
        (.arr ["**/*.md"]) (.arr ["**/draft/**"]) mdGlob).Nodup :=
  ⟨(c7_scope_filter ["notes/a.md", "notes/a.md", "notes/draft/x.md", "b.txt"]
      (.arr ["**/*.md"]) (.arr ["**/draft/**"]) mdGlob).2.2.2.2
      "notes/a.md" (by decide) (by decide),
   (c7_scope_filter ["notes/a.md", "notes/a.md", "notes/draft/x.md", "b.txt"]
      (.arr ["**/*.md"]) (.arr ["**/draft/**"]) mdGlob).2.1⟩

/-- Claim C8 — counterexample.  `part_001`'s loader applies no defaults at
all (an absent `include_patterns` stays absent), and `part_000`'s
`findAllFiles` falls back to `['**/*']` for a missing `include_patterns` —
neither produces `['**/*.md']`. -/
theorem c8_counterexample :
    (loadFolderMapping001 ⟨some [("docs", "F1")], .absent, .absent⟩).include_patterns =
      .absent ∧
    PatternField.absent ≠ .arr ["**/*.md"] ∧
    normalizeInclude000 .absent = ["**/*"] ∧
    (["**/*"] : List String) ≠ ["**/*.md"] := by
  decide

/-- Claim C8 — amended.  The `loadFolderMapping` of `src/upload-to-onedrive.js`
(and of `part_000`) turns an absent `include_patterns` into exactly
`['**/*.md']` and an absent `exclude_patterns` into exactly `[]`, and the
pattern normalization inside `findMarkdownFiles` uses the same defaults;
`part_000`'s `findAllFiles` instead falls back to `['**/*']`, and `part_001`'s
loader applies no defaults. -/
theorem c8_defaults :
    (∀ (k v : String) (rest : List (String × String)),
        loadFolderMapping ⟨some ((k, v) :: rest), .absent, .absent⟩ =
          .ok ⟨(k, v) :: rest, .arr ["**/*.md"], .arr []⟩) ∧
    normalizeInclude .absent = ["**/*.md"] ∧
    normalizeExclude .absent = [] ∧
    normalizeInclude000 .absent = ["**/*"] ∧
    (∀ raw : RawConfig, loadFolderMapping001 raw = raw) :=
  ⟨fun _ _ _ => rfl, rfl, rfl, rfl, fun _ => rfl⟩

/-- Claim C9 — confirmed.  A missing or empty `mappings` section makes the
run fail at `loadFolderMapping`, before the change set is resolved and
before any file is classified or delivered: `mainRun` returns the
configuration error and no counters or delivery list exist. -/
theorem c9_config_error_aborts (incF excF : PatternField) (ctx : RunContext)
    (gitResult : Except String (List String)) (world : List String)
    (matc : String → String → Bool) (uploadOk : String → Bool) :
    mainRun ⟨none, incF, excF⟩ ctx gitResult world matc uploadOk =
        .error "Configuration missing \"mappings\" section" ∧
    mainRun ⟨some [], incF, excF⟩ ctx gitResult world matc uploadOk =
        .error "No folder mappings defined in configuration" :=
  ⟨rfl, rfl⟩

/-- Claim C10 — confirmed.  In an incremental context, a successful diff
with no (non-empty) changed lines yields the empty candidate set — the full
scan is not consulted. -/
theorem c10_empty_diff_no_fallback (ctx : RunContext) (lines world : List String)
    (incF excF : PatternField) (matc : String → String → Bool)
    (hga : ctx.githubActions = true)
    (hev : ctx.eventName = .push ∨ ctx.eventName = .pullRequest)
    (hempty : lines.filter (fun s => !(s == "")) = []) :
    getChangedMarkdownFiles ctx (.ok lines) world incF excF matc = [] := by
  obtain ⟨ga, en⟩ := ctx
  simp only at hga hev
  subst hga
  rcases hev with h | h <;> subst h <;>
    simp [getChangedMarkdownFiles, hempty]

/-- Claim C10 — witness at a concrete input (the diff output of an empty
change set is a single empty line). -/
theorem c10_witness :
    getChangedMarkdownFiles ⟨true, .pullRequest⟩ (.ok [""]) ["a.md"]
        (.arr ["**/*.md"]) (.arr []) mdGlob = [] :=
  c10_empty_diff_no_fallback ⟨true, .pullRequest⟩ [""] ["a.md"]
    (.arr ["**/*.md"]) (.arr []) mdGlob rfl (Or.inr rfl) (by decide)
